import Mathlib

/-!
Shallow embedding of the EasyBook availability and booking engine
(`src/app.py`, route `book`, lines 194-424, plus the model declarations).

Conventions of the embedding:
- Timestamps are minutes since an abstract epoch (`Nat`); a calendar date is
  `t / minutesPerDay`; a time-of-day is minutes after midnight.
- Day 0 of the epoch is a Monday, so `day % 7` is Python's `date.weekday()`
  (0 = Monday .. 6 = Sunday).
- The SQLAlchemy tables are lists/records; the preloaded dictionaries
  `bh_by_weekday` and `ov_by_date` are functions returning `Option`;
  `booked_starts_by_date` is derived from the appointment list with the same
  date-range filter as the query at lines 229-245.
- Python truthiness on `datetime.time` values: on Python >= 3.5 every `time`
  is truthy, so `not ov.start_time` means exactly "is None", which is how
  the `Option` match below reads.
-/

namespace EasyBook

/-- `APPT_MINUTES` constant (src/app.py line 200). -/
def APPT_MINUTES : Nat := 30

/-- `SLOT_STEP_MINUTES` constant (src/app.py line 201). -/
def SLOT_STEP_MINUTES : Nat := 30

/-- `WINDOW_DAYS` constant (src/app.py line 206). -/
def WINDOW_DAYS : Nat := 60

/-- Minutes in a day; `datetime.combine(day, t)` is `day * minutesPerDay + t`. -/
def minutesPerDay : Nat := 1440

/-- Row of the `business_hours` table (src/app.py lines 69-76). Times are
minutes after midnight. -/
structure BusinessHour where
  start_time : Nat
  end_time : Nat
  is_closed : Bool
  deriving DecidableEq, Repr

/-- Row of the `availability_overrides` table (src/app.py lines 79-86);
`start_time`/`end_time` are nullable. -/
structure AvailabilityOverride where
  start_time : Option Nat
  end_time : Option Nat
  is_closed : Bool
  deriving DecidableEq, Repr

/-- Row of the `appointments` table (src/app.py lines 52-66); `start_at` and
`end_at` are minutes since the epoch. -/
structure Appointment where
  user_id : Nat
  start_at : Nat
  end_at : Nat
  status : String
  deriving DecidableEq, Repr

/-- The preloaded `booked_starts_by_date` dictionary (src/app.py lines
229-245): scheduled appointments whose `start_at` lies in
`[range_start midnight, (range_end+1) midnight)`, grouped by date. -/
def booked_starts_by_date (appts : List Appointment)
    (range_start range_end : Nat) (d : Nat) : List Nat :=
  (appts.filter (fun a =>
      a.status == "scheduled" &&
      decide (range_start * minutesPerDay ≤ a.start_at) &&
      decide (a.start_at < (range_end + 1) * minutesPerDay) &&
      a.start_at / minutesPerDay == d)).map (fun a => a.start_at)

/-- `is_open_day` (src/app.py lines 250-265): an override fully decides the
day when present; otherwise the weekly row for `day % 7` does. -/
def is_open_day (ov_by_date : Nat → Option AvailabilityOverride)
    (bh_by_weekday : Nat → Option BusinessHour) (day_date : Nat) : Bool :=
  match ov_by_date day_date with
  | some ov =>
    if ov.is_closed then false
    else
      match ov.start_time, ov.end_time with
      | some st, some et => if et ≤ st then false else true
      | _, _ => false
  | none =>
    match bh_by_weekday (day_date % 7) with
    | some bh =>
      if bh.is_closed then false
      else if bh.end_time ≤ bh.start_time then false
      else true
    | none => false

/-- `get_day_hours` (src/app.py lines 270-282): the resolved open interval of
a day as times-of-day, or `none` when closed. -/
def get_day_hours (ov_by_date : Nat → Option AvailabilityOverride)
    (bh_by_weekday : Nat → Option BusinessHour) (day_date : Nat) :
    Option (Nat × Nat) :=
  match ov_by_date day_date with
  | some ov =>
    if ov.is_closed then none
    else
      match ov.start_time, ov.end_time with
      | some st, some et => if et ≤ st then none else some (st, et)
      | _, _ => none
  | none =>
    match bh_by_weekday (day_date % 7) with
    | some bh =>
      if bh.is_closed then none
      else if bh.end_time ≤ bh.start_time then none
      else some (bh.start_time, bh.end_time)
    | none => none

/-- The `while` loop of `build_slots_for_day` (src/app.py lines 298-304):
from `cur`, while `cur + APPT_MINUTES <= day_end`, emit `cur` when
`cur >= now_dt and cur not in booked_starts`, then step by
`SLOT_STEP_MINUTES`. The structural `fuel` only bounds the iteration count;
the caller passes `day_end`, which strictly exceeds the number of guard-true
iterations (each iteration needs `cur + 30 ≤ day_end` and `cur` grows by 30
from a start that is at least 0, so at most `day_end / 30` iterations run),
hence the fuel never runs out before the loop guard fails. -/
def slots_go (booked_starts : List Nat) (now_dt day_end : Nat) :
    Nat → Nat → List Nat
  | 0, _ => []
  | fuel + 1, cur =>
    if cur + APPT_MINUTES ≤ day_end then
      (if now_dt ≤ cur ∧ cur ∉ booked_starts then [cur] else []) ++
        slots_go booked_starts now_dt day_end fuel (cur + SLOT_STEP_MINUTES)
    else []

/-- `build_slots_for_day` (src/app.py lines 287-306): resolve the day's
hours, then run the slot loop from `day_start` against that day's booked
starts. -/
def build_slots_for_day (ov_by_date : Nat → Option AvailabilityOverride)
    (bh_by_weekday : Nat → Option BusinessHour)
    (booked : Nat → List Nat) (now_dt day_date : Nat) : List Nat :=
  match get_day_hours ov_by_date bh_by_weekday day_date with
  | none => []
  | some (start_t, end_t) =>
    slots_go (booked day_date) now_dt (day_date * minutesPerDay + end_t)
      (day_date * minutesPerDay + end_t) (day_date * minutesPerDay + start_t)

/-- The conflict check of the commit path (src/app.py line 336): is there a
scheduled appointment with exactly this `start_at`? -/
def conflict_check (appts : List Appointment) (start_at : Nat) : Bool :=
  appts.any (fun a => a.start_at == start_at && a.status == "scheduled")

/-- The insert of the commit path (src/app.py lines 340-347): append a new
scheduled appointment with `end_at = start_at + APPT_MINUTES`. -/
def commit_insert (appts : List Appointment) (uid start_at : Nat) :
    List Appointment :=
  appts ++ [⟨uid, start_at, start_at + APPT_MINUTES, "scheduled"⟩]

/-- Outcome of a booking attempt (src/app.py lines 329-348): the two error
messages and the success render. -/
inductive BookResult where
  | rejectedPast
  | rejectedTaken
  | booked (a : Appointment)
  deriving DecidableEq, Repr

/-- The POST commit path of `book` (src/app.py lines 311-348), run to
completion as one step: reject past starts, reject on conflict, otherwise
insert and commit. Returns the outcome and the resulting appointment table. -/
def book (appts : List Appointment) (uid start_at now_dt : Nat) :
    BookResult × List Appointment :=
  if start_at < now_dt then (BookResult.rejectedPast, appts)
  else if conflict_check appts start_at then (BookResult.rejectedTaken, appts)
  else (BookResult.booked ⟨uid, start_at, start_at + APPT_MINUTES, "scheduled"⟩,
        commit_insert appts uid start_at)

/-- The `start_at` values of the scheduled appointments, in table order. -/
def scheduled_starts (appts : List Appointment) : List Nat :=
  (appts.filter (fun a => a.status == "scheduled")).map (fun a => a.start_at)

/-- The uniqueness business rule: no two scheduled appointments share a
`start_at`. -/
def UniqueScheduled (appts : List Appointment) : Prop :=
  (scheduled_starts appts).Nodup

/-- The days scanned by the availability window (src/app.py line 358):
`today + i` for `i` in `0 .. WINDOW_DAYS` inclusive. -/
def window_days (today : Nat) : List Nat :=
  (List.range (WINDOW_DAYS + 1)).map (fun i => today + i)

/-- `open_dates` of the window scan (src/app.py lines 355-362): the open days
of the window. -/
def open_dates (ov_by_date : Nat → Option AvailabilityOverride)
    (bh_by_weekday : Nat → Option BusinessHour) (today : Nat) : List Nat :=
  (window_days today).filter (fun d => is_open_day ov_by_date bh_by_weekday d)

/-- `available_dates` of the window scan (src/app.py lines 361-365): open days
with at least one free slot. -/
def available_dates (ov_by_date : Nat → Option AvailabilityOverride)
    (bh_by_weekday : Nat → Option BusinessHour)
    (booked : Nat → List Nat) (now_dt today : Nat) : List Nat :=
  (window_days today).filter (fun d =>
    is_open_day ov_by_date bh_by_weekday d &&
      !(build_slots_for_day ov_by_date bh_by_weekday booked now_dt d).isEmpty)

/-- `open_dates` with the window anchored at `now`'s date, the appointment
table preloaded as at lines 214-245. -/
def scan_open_dates (ov_by_date : Nat → Option AvailabilityOverride)
    (bh_by_weekday : Nat → Option BusinessHour) (now_dt : Nat) : List Nat :=
  open_dates ov_by_date bh_by_weekday (now_dt / minutesPerDay)

/-- `available_dates` with the window anchored at `now`'s date and the booked
dictionary derived from the appointment table over that window. -/
def scan_available_dates (ov_by_date : Nat → Option AvailabilityOverride)
    (bh_by_weekday : Nat → Option BusinessHour)
    (appts : List Appointment) (now_dt : Nat) : List Nat :=
  available_dates ov_by_date bh_by_weekday
    (booked_starts_by_date appts (now_dt / minutesPerDay)
      (now_dt / minutesPerDay + WINDOW_DAYS))
    now_dt (now_dt / minutesPerDay)

/-- `soonest_available` (src/app.py line 368): head of `available_dates`. -/
def soonest_available (ov_by_date : Nat → Option AvailabilityOverride)
    (bh_by_weekday : Nat → Option BusinessHour)
    (appts : List Appointment) (now_dt : Nat) : Option Nat :=
  (scan_available_dates ov_by_date bh_by_weekday appts now_dt).head?

/-- The past-date clamp (src/app.py lines 383-385). -/
def clamp_to_today (today req : Nat) : Nat :=
  if req < today then today else req

/-- The notice attached to the selected day: none, the "not open" bounce, or
the "fully booked" bounce (src/app.py lines 388-397). -/
inductive Notice where
  | noneNotice
  | notOpen
  | fullyBooked
  deriving DecidableEq, Repr

/-- The selected-day resolution (src/app.py lines 373-406): clamp past
requests to today, bounce to the soonest available day with a notice when the
requested day is not open or is open but fully booked, otherwise show it;
with no requested day, default to the soonest available day or today. -/
def select_day (ov_by_date : Nat → Option AvailabilityOverride)
    (bh_by_weekday : Nat → Option BusinessHour)
    (appts : List Appointment) (now_dt : Nat) (requested : Option Nat) :
    Nat × Notice :=
  match requested with
  | some d0 =>
    match soonest_available ov_by_date bh_by_weekday appts now_dt with
    | some s =>
      if clamp_to_today (now_dt / minutesPerDay) d0 ∉
          scan_open_dates ov_by_date bh_by_weekday now_dt then
        (s, Notice.notOpen)
      else if clamp_to_today (now_dt / minutesPerDay) d0 ∉
          scan_available_dates ov_by_date bh_by_weekday appts now_dt then
        (s, Notice.fullyBooked)
      else (clamp_to_today (now_dt / minutesPerDay) d0, Notice.noneNotice)
    | none => (clamp_to_today (now_dt / minutesPerDay) d0, Notice.noneNotice)
  | none =>
    match soonest_available ov_by_date bh_by_weekday appts now_dt with
    | some s => (s, Notice.noneNotice)
    | none => (now_dt / minutesPerDay, Notice.noneNotice)

/-- The slot list rendered for the selected day (src/app.py line 408). -/
def selected_slots (ov_by_date : Nat → Option AvailabilityOverride)
    (bh_by_weekday : Nat → Option BusinessHour)
    (appts : List Appointment) (now_dt : Nat) (requested : Option Nat) :
    List Nat :=
  build_slots_for_day ov_by_date bh_by_weekday
    (booked_starts_by_date appts (now_dt / minutesPerDay)
      (now_dt / minutesPerDay + WINDOW_DAYS))
    now_dt (select_day ov_by_date bh_by_weekday appts now_dt requested).1

/-- Exact spacing of a slot list: each consecutive pair differs by exactly
`SLOT_STEP_MINUTES`. -/
def ExactlyStepSpaced (l : List Nat) : Prop :=
  l.Chain' (fun a b => b = a + SLOT_STEP_MINUTES)

/-- Per-claim fixture: no overrides. -/
def fix_no_ov : Nat → Option AvailabilityOverride := fun _ => none

/-- Fixture for the Monday scenario: Mondays 09:00-17:00, every other weekday
without a weekly row. -/
def fix_bh_monday : Nat → Option BusinessHour :=
  fun w => if w = 0 then some ⟨540, 1020, false⟩ else none

/-- Fixture: no booked starts on any day. -/
def fix_no_booked : Nat → List Nat := fun _ => []

/-- Fixture for the spacing counterexample: Mondays 09:00-10:30. -/
def fix_bh_short : Nat → Option BusinessHour :=
  fun w => if w = 0 then some ⟨540, 630, false⟩ else none

/-- Fixture for the window-policy scenario: Mondays 09:00-09:30, one slot. -/
def fix_bh_one_slot : Nat → Option BusinessHour :=
  fun w => if w = 0 then some ⟨540, 570, false⟩ else none

/-- Fixture: a scheduled appointment at 09:00 on each of the nine Mondays of
the 61-day window starting at day 0, filling the single daily slot of
`fix_bh_one_slot`. -/
def fix_appts_mondays : List Appointment :=
  (List.range 9).map (fun k =>
    ⟨1, 7 * k * 1440 + 540, 7 * k * 1440 + 570, "scheduled"⟩)

/-!  Helper lemmas about the slot loop, proved for every fuel value (the
properties below do not depend on where the loop is cut off). -/

/-- Every emitted slot is at or after `now_dt`, at or after the cursor it was
reached from, fits before `day_end`, and sits on the step grid based at the
cursor. -/
theorem slots_go_mem (booked : List Nat) (now_dt day_end : Nat) :
    ∀ fuel cur x, x ∈ slots_go booked now_dt day_end fuel cur →
      now_dt ≤ x ∧ cur ≤ x ∧ x + APPT_MINUTES ≤ day_end ∧
        (x - cur) % SLOT_STEP_MINUTES = 0 := by
  intro fuel
  induction fuel with
  | zero =>
    intro cur x hx
    simp [slots_go] at hx
  | succ f ih =>
    intro cur x hx
    simp only [slots_go] at hx
    split at hx
    · rename_i hguard
      rcases List.mem_append.1 hx with h1 | h2
      · split at h1
        · rename_i hemit
          simp only [List.mem_singleton] at h1
          subst h1
          exact ⟨hemit.1, Nat.le_refl _, hguard, by simp⟩
        · simp at h1
      · obtain ⟨hn, hc, he, hm⟩ := ih (cur + SLOT_STEP_MINUTES) x h2
        refine ⟨hn, Nat.le_trans (Nat.le_add_right _ _) hc, he, ?_⟩
        have hsplit : x - cur = (x - (cur + SLOT_STEP_MINUTES)) + SLOT_STEP_MINUTES := by
          omega
        rw [hsplit, Nat.add_mod_right]
        exact hm
    · simp at hx

/-- The slot loop output is strictly increasing. -/
theorem slots_go_sorted (booked : List Nat) (now_dt day_end : Nat) :
    ∀ fuel cur, (slots_go booked now_dt day_end fuel cur).Sorted (· < ·) := by
  intro fuel
  induction fuel with
  | zero =>
    intro cur
    simp [slots_go]
  | succ f ih =>
    intro cur
    simp only [slots_go]
    split
    · split
      · simp only [List.singleton_append]
        refine List.sorted_cons.2 ⟨?_, ih (cur + SLOT_STEP_MINUTES)⟩
        intro b hb
        have hcb := (slots_go_mem booked now_dt day_end f (cur + SLOT_STEP_MINUTES) b hb).2.1
        have hstep : SLOT_STEP_MINUTES = 30 := rfl
        omega
      · simpa using ih (cur + SLOT_STEP_MINUTES)
    · simp

/-- Claim C3: for every date that has an override record, the resolved result
depends only on the override — changing the weekly row for that weekday does
not change the resolved interval, nor the open/closed verdict. -/
theorem override_ignores_weekly (ov_by_date : Nat → Option AvailabilityOverride)
    (bh bh' : Nat → Option BusinessHour) (d : Nat) (o : AvailabilityOverride)
    (h : ov_by_date d = some o) :
    get_day_hours ov_by_date bh d = get_day_hours ov_by_date bh' d ∧
      is_open_day ov_by_date bh d = is_open_day ov_by_date bh' d := by
  constructor
  · unfold get_day_hours
    rw [h]
  · unfold is_open_day
    rw [h]

/-- Witness for C3: an override 10:00-14:00 on day 0 resolves identically
whether the weekly schedule is fully open or absent. -/
theorem override_ignores_weekly_witness :
    ((fun _ : Nat => some (⟨some 600, some 840, false⟩ : AvailabilityOverride)) 0 =
      some (⟨some 600, some 840, false⟩ : AvailabilityOverride)) ∧
    (get_day_hours (fun _ => some ⟨some 600, some 840, false⟩) fix_bh_monday 0 =
      get_day_hours (fun _ => some ⟨some 600, some 840, false⟩) (fun _ => none) 0 ∧
     is_open_day (fun _ => some ⟨some 600, some 840, false⟩) fix_bh_monday 0 =
      is_open_day (fun _ => some ⟨some 600, some 840, false⟩) (fun _ => none) 0) :=
  ⟨rfl, override_ignores_weekly (fun _ => some ⟨some 600, some 840, false⟩)
    fix_bh_monday (fun _ => none) 0 ⟨some 600, some 840, false⟩ rfl⟩

/-- Counterexample for C4 as stated: with open hours 09:00-10:30 and the
09:30 start already booked, the generated list is 09:00, 10:00 — consecutive
slots 60 minutes apart, not exactly one step of 30. -/
theorem slots_not_exactly_step_spaced :
    build_slots_for_day fix_no_ov fix_bh_short (fun _ => [570]) 0 0 = [540, 600] ∧
    ¬ ExactlyStepSpaced
        (build_slots_for_day fix_no_ov fix_bh_short (fun _ => [570]) 0 0) := by
  constructor
  · decide
  · intro hch
    unfold ExactlyStepSpaced at hch
    rw [show build_slots_for_day fix_no_ov fix_bh_short (fun _ => [570]) 0 0 =
        [540, 600] by decide] at hch
    simp [List.chain'_cons, SLOT_STEP_MINUTES] at hch

/-- Claim C4, amended: for every resolved open interval, booked set and now,
the slot list is strictly increasing, every slot lies on the 30-minute grid
based at the interval start (so consecutive slots are a positive multiple of
the step apart), and every slot satisfies slot + duration <= interval end.
The spacing is exactly one step only when no intermediate grid point is
suppressed as past or booked. -/
theorem slots_increasing_within_hours
    (ov_by_date : Nat → Option AvailabilityOverride)
    (bh_by_weekday : Nat → Option BusinessHour)
    (booked : Nat → List Nat) (now_dt day_date st et : Nat)
    (h : get_day_hours ov_by_date bh_by_weekday day_date = some (st, et)) :
    (build_slots_for_day ov_by_date bh_by_weekday booked now_dt day_date).Sorted (· < ·) ∧
    ∀ x ∈ build_slots_for_day ov_by_date bh_by_weekday booked now_dt day_date,
      x + APPT_MINUTES ≤ day_date * minutesPerDay + et ∧
        (x - (day_date * minutesPerDay + st)) % SLOT_STEP_MINUTES = 0 := by
  unfold build_slots_for_day
  rw [h]
  refine ⟨slots_go_sorted _ _ _ _ _, fun x hx => ?_⟩
  have hm := slots_go_mem (booked day_date) now_dt
    (day_date * minutesPerDay + et) (day_date * minutesPerDay + et)
    (day_date * minutesPerDay + st) x hx
  exact ⟨hm.2.2.1, hm.2.2.2⟩

/-- Witness for C4 amended: the 09:00-10:30 Monday with 09:30 booked. -/
theorem slots_increasing_within_hours_witness :
    get_day_hours fix_no_ov fix_bh_short 0 = some (540, 630) ∧
    ((build_slots_for_day fix_no_ov fix_bh_short (fun _ => [570]) 0 0).Sorted (· < ·) ∧
     ∀ x ∈ build_slots_for_day fix_no_ov fix_bh_short (fun _ => [570]) 0 0,
       x + APPT_MINUTES ≤ 0 * minutesPerDay + 630 ∧
         (x - (0 * minutesPerDay + 540)) % SLOT_STEP_MINUTES = 0) :=
  ⟨by decide,
   slots_increasing_within_hours fix_no_ov fix_bh_short (fun _ => [570])
     0 0 540 630 (by decide)⟩

/-- Claim C7: a Monday with weekly hours 09:00-17:00 and no weekly closure,
no override, no appointments and now at the start of the day yields exactly
the slot starts 09:00, 09:30, ..., 16:30 — 16 slots. -/
theorem monday_sixteen_slots :
    build_slots_for_day fix_no_ov fix_bh_monday fix_no_booked 0 0 =
      [540, 570, 600, 630, 660, 690, 720, 750, 780, 810,
       840, 870, 900, 930, 960, 990] ∧
    (build_slots_for_day fix_no_ov fix_bh_monday fix_no_booked 0 0).length = 16 := by
  constructor
  · decide
  · decide

/-- Claim C8: no slot start strictly before now ever appears in the slot
list — past slots are suppressed. -/
theorem no_past_slots (ov_by_date : Nat → Option AvailabilityOverride)
    (bh_by_weekday : Nat → Option BusinessHour)
    (booked : Nat → List Nat) (now_dt day_date x : Nat)
    (hx : x ∈ build_slots_for_day ov_by_date bh_by_weekday booked now_dt day_date) :
    now_dt ≤ x := by
  unfold build_slots_for_day at hx
  split at hx
  · simp at hx
  · exact (slots_go_mem _ _ _ _ _ x hx).1

/-- Witness for C8: with now at 10:00 mid-Monday, 10:00 is offered and the
theorem instantiates on it. -/
theorem no_past_slots_witness :
    600 ∈ build_slots_for_day fix_no_ov fix_bh_monday fix_no_booked 600 0 ∧
    600 ≤ 600 :=
  ⟨by decide, no_past_slots fix_no_ov fix_bh_monday fix_no_booked 600 0 600 (by decide)⟩

/-- Inserting via the commit path appends exactly one scheduled start. -/
theorem scheduled_starts_commit_insert (appts : List Appointment) (uid s : Nat) :
    scheduled_starts (commit_insert appts uid s) = scheduled_starts appts ++ [s] := by
  simp [scheduled_starts, commit_insert]

/-- A failed conflict check means the start is absent from the scheduled
starts. -/
theorem conflict_check_false_not_mem (appts : List Appointment) (s : Nat)
    (h : conflict_check appts s = false) : s ∉ scheduled_starts appts := by
  intro hmem
  simp only [scheduled_starts, List.mem_map, List.mem_filter] at hmem
  obtain ⟨a, ⟨ha, hst⟩, hs⟩ := hmem
  simp only [conflict_check, List.any_eq_false, Bool.and_eq_true, beq_iff_eq] at h
  exact h a ha ⟨hs, by simpa using hst⟩

/-- Claim C2: run sequentially (each call one atomic step), the commit path
preserves the invariant that no two scheduled appointments share a
`start_at`. -/
theorem book_preserves_uniqueness (appts : List Appointment)
    (uid s now_dt : Nat) (h : UniqueScheduled appts) :
    UniqueScheduled (book appts uid s now_dt).2 := by
  unfold book
  split
  · exact h
  · split
    · exact h
    · rename_i hpast hcc
      show UniqueScheduled (commit_insert appts uid s)
      have hccf : conflict_check appts s = false := by
        simpa using hcc
      have hnot := conflict_check_false_not_mem appts s hccf
      unfold UniqueScheduled at h ⊢
      rw [scheduled_starts_commit_insert]
      refine List.Nodup.append h (List.nodup_singleton s) ?_
      intro x hx hx'
      simp only [List.mem_singleton] at hx'
      subst hx'
      exact hnot hx

/-- Witness for C2: the empty table is unique and stays unique after a
successful booking. -/
theorem book_preserves_uniqueness_witness :
    UniqueScheduled [] ∧ UniqueScheduled (book [] 1 540 0).2 :=
  ⟨List.nodup_nil, book_preserves_uniqueness [] 1 540 0 List.nodup_nil⟩

/-- Claim C5: a past `start_at` is rejected with the past-booking error and
the table is unchanged; an exact-start conflict with a scheduled appointment
is rejected with the slot-taken error and the table is unchanged; otherwise
exactly one appointment is appended, scheduled, with
`end_at = start_at + 30`. -/
theorem book_spec (appts : List Appointment) (uid s now_dt : Nat) :
    (s < now_dt → book appts uid s now_dt = (BookResult.rejectedPast, appts)) ∧
    (now_dt ≤ s → conflict_check appts s = true →
      book appts uid s now_dt = (BookResult.rejectedTaken, appts)) ∧
    (now_dt ≤ s → conflict_check appts s = false →
      book appts uid s now_dt =
        (BookResult.booked ⟨uid, s, s + APPT_MINUTES, "scheduled"⟩,
         appts ++ [⟨uid, s, s + APPT_MINUTES, "scheduled"⟩])) := by
  refine ⟨fun hp => ?_, fun hn hc => ?_, fun hn hc => ?_⟩
  · simp [book, hp]
  · simp [book, Nat.not_lt.2 hn, hc]
  · simp [book, Nat.not_lt.2 hn, hc, commit_insert]

/-- Witness for C5: the three branches at concrete inputs — a past start, a
conflicting start against a table holding 09:00, and a fresh start. -/
theorem book_spec_witness :
    book [] 1 100 200 = (BookResult.rejectedPast, []) ∧
    book [⟨7, 540, 570, "scheduled"⟩] 1 540 0 =
      (BookResult.rejectedTaken, [⟨7, 540, 570, "scheduled"⟩]) ∧
    book [] 1 540 0 =
      (BookResult.booked ⟨1, 540, 540 + APPT_MINUTES, "scheduled"⟩,
       [] ++ [⟨1, 540, 540 + APPT_MINUTES, "scheduled"⟩]) :=
  ⟨(book_spec [] 1 100 200).1 (by decide),
   (book_spec [⟨7, 540, 570, "scheduled"⟩] 1 540 0).2.1 (by decide) (by decide),
   (book_spec [] 1 540 0).2.2 (by decide) (by decide)⟩

/-- Claim C1: the commit path is a plain check-then-insert with no storage
uniqueness guarantee, so two concurrent requests for the same `start_at` can
interleave as check A, check B, insert A, insert B. Both conflict checks
(line 336) read a table with no scheduled appointment at 09:00, both requests
therefore take the success branch of `book` and return Booked, and the final
table holds two scheduled appointments with the same `start_at` — the claimed
exactly-one-success guarantee fails on the code. -/
theorem concurrent_booking_race :
    conflict_check [] 540 = false ∧
    book [] 1 540 0 =
      (BookResult.booked ⟨1, 540, 570, "scheduled"⟩, [⟨1, 540, 570, "scheduled"⟩]) ∧
    book [] 2 540 0 =
      (BookResult.booked ⟨2, 540, 570, "scheduled"⟩, [⟨2, 540, 570, "scheduled"⟩]) ∧
    ¬ UniqueScheduled (commit_insert (commit_insert [] 1 540) 2 540) := by
  refine ⟨rfl, by decide, by decide, ?_⟩
  intro hu
  unfold UniqueScheduled at hu
  rw [show scheduled_starts (commit_insert (commit_insert [] 1 540) 2 540) =
      [540, 540] by decide] at hu
  simp at hu

/-- Claim C10: the commit path checks only `start_at >= now` and exact
equality with an existing scheduled start. With every weekday lacking a
weekly row (resolved closed) and an existing appointment 09:00-09:30, a
request for 09:15 — on a closed day, off the 30-minute grid, and overlapping
the existing appointment without sharing its start — is accepted. -/
theorem book_skips_availability_checks :
    get_day_hours fix_no_ov (fun _ => none) 0 = none ∧
    555 % SLOT_STEP_MINUTES ≠ 0 ∧
    book [⟨1, 540, 570, "scheduled"⟩] 2 555 0 =
      (BookResult.booked ⟨2, 555, 585, "scheduled"⟩,
       [⟨1, 540, 570, "scheduled"⟩, ⟨2, 555, 585, "scheduled"⟩]) ∧
    (555 ≠ 540 ∧ 540 < 585 ∧ 555 < 570) := by
  refine ⟨rfl, by decide, by decide, by decide⟩

/-- Counterexample for C6 as stated: a misconfigured override (17:00-09:00,
close before open) and an ordinary closed override resolve to exactly the
same outputs — `none` from the hour resolver and `false` from the open-day
test — so no caller can distinguish a misconfigured day from ordinary
closure; the code carries no misconfigured tag. -/
theorem misconfigured_tag_counterexample :
    get_day_hours (fun _ => some ⟨some 1020, some 540, false⟩) fix_bh_monday 0 = none ∧
    get_day_hours (fun _ => some ⟨none, none, true⟩) fix_bh_monday 0 = none ∧
    is_open_day (fun _ => some ⟨some 1020, some 540, false⟩) fix_bh_monday 0 =
      is_open_day (fun _ => some ⟨none, none, true⟩) fix_bh_monday 0 :=
  ⟨rfl, rfl, rfl⟩

/-- Claim C6, amended: for every date whose governing record — override, or
weekly row when no override exists — has close time at or before open time,
the resolver returns plain closure (`none`/not open, with no distinguishing
misconfigured tag), and the day is excluded from both `open_dates` and
`available_dates` of every window scan. -/
theorem misconfigured_treated_closed
    (ov_by_date : Nat → Option AvailabilityOverride)
    (bh_by_weekday : Nat → Option BusinessHour)
    (booked : Nat → List Nat) (d now_dt today : Nat)
    (h : (∃ o st et, ov_by_date d = some o ∧ o.is_closed = false ∧
            o.start_time = some st ∧ o.end_time = some et ∧ et ≤ st) ∨
         (ov_by_date d = none ∧ ∃ b, bh_by_weekday (d % 7) = some b ∧
            b.is_closed = false ∧ b.end_time ≤ b.start_time)) :
    get_day_hours ov_by_date bh_by_weekday d = none ∧
    is_open_day ov_by_date bh_by_weekday d = false ∧
    d ∉ open_dates ov_by_date bh_by_weekday today ∧
    d ∉ available_dates ov_by_date bh_by_weekday booked now_dt today := by
  have hopen : is_open_day ov_by_date bh_by_weekday d = false := by
    rcases h with ⟨o, st, et, ho, hc, hst, het, hle⟩ | ⟨ho, b, hb, hc, hle⟩
    · simp [is_open_day, ho, hc, hst, het, hle]
    · simp [is_open_day, ho, hb, hc, hle]
  have hhours : get_day_hours ov_by_date bh_by_weekday d = none := by
    rcases h with ⟨o, st, et, ho, hc, hst, het, hle⟩ | ⟨ho, b, hb, hc, hle⟩
    · simp [get_day_hours, ho, hc, hst, het, hle]
    · simp [get_day_hours, ho, hb, hc, hle]
  refine ⟨hhours, hopen, ?_, ?_⟩
  · intro hmem
    rw [open_dates, List.mem_filter, hopen] at hmem
    simp at hmem
  · intro hmem
    rw [available_dates, List.mem_filter, hopen] at hmem
    simp at hmem

/-- Witness for C6 amended: the 17:00-09:00 override on day 0, window
anchored at day 0. -/
theorem misconfigured_treated_closed_witness :
    ((∃ o st et, (fun _ : Nat => some (⟨some 1020, some 540, false⟩ : AvailabilityOverride)) 0 =
          some o ∧ o.is_closed = false ∧
          o.start_time = some st ∧ o.end_time = some et ∧ et ≤ st) ∨
      ((fun _ : Nat => some (⟨some 1020, some 540, false⟩ : AvailabilityOverride)) 0 = none ∧
        ∃ b, fix_bh_monday (0 % 7) = some b ∧
          b.is_closed = false ∧ b.end_time ≤ b.start_time)) ∧
    (get_day_hours (fun _ => some ⟨some 1020, some 540, false⟩) fix_bh_monday 0 = none ∧
     is_open_day (fun _ => some ⟨some 1020, some 540, false⟩) fix_bh_monday 0 = false ∧
     0 ∉ open_dates (fun _ => some ⟨some 1020, some 540, false⟩) fix_bh_monday 0 ∧
     0 ∉ available_dates (fun _ => some ⟨some 1020, some 540, false⟩) fix_bh_monday
          fix_no_booked 0 0) :=
  ⟨Or.inl ⟨⟨some 1020, some 540, false⟩, 1020, 540, rfl, rfl, rfl, rfl, by decide⟩,
   misconfigured_treated_closed (fun _ => some ⟨some 1020, some 540, false⟩)
     fix_bh_monday fix_no_booked 0 0 0
     (Or.inl ⟨⟨some 1020, some 540, false⟩, 1020, 540, rfl, rfl, rfl, rfl, by decide⟩)⟩

/-- The open-day test and the hour resolver agree branch for branch: a day is
open exactly when it resolves to an interval. -/
theorem is_open_day_eq_isSome (ov_by_date : Nat → Option AvailabilityOverride)
    (bh_by_weekday : Nat → Option BusinessHour) (d : Nat) :
    is_open_day ov_by_date bh_by_weekday d =
      (get_day_hours ov_by_date bh_by_weekday d).isSome := by
  unfold is_open_day get_day_hours
  rcases ov_by_date d with _ | o
  · rcases bh_by_weekday (d % 7) with _ | b
    · simp
    · rcases hc : b.is_closed <;> simp [hc]
      split <;> simp_all
  · rcases hc : o.is_closed <;> simp [hc]
    rcases o.start_time with _ | st <;> rcases o.end_time with _ | et <;> simp
    split <;> simp_all

/-- A day with a non-empty slot list is open. -/
theorem slots_nonempty_open (ov_by_date : Nat → Option AvailabilityOverride)
    (bh_by_weekday : Nat → Option BusinessHour)
    (booked : Nat → List Nat) (now_dt d : Nat)
    (h : build_slots_for_day ov_by_date bh_by_weekday booked now_dt d ≠ []) :
    is_open_day ov_by_date bh_by_weekday d = true := by
  rw [is_open_day_eq_isSome]
  cases heq : get_day_hours ov_by_date bh_by_weekday d with
  | none =>
    exfalso
    apply h
    unfold build_slots_for_day
    rw [heq]
  | some p => simp

/-- When no soonest available day exists, every day of the scan window has an
empty slot list against the scan's booked-start preload: a window day with a
non-empty list would be open, hence in `available_dates`, making it
non-empty. -/
theorem soonest_none_window_empty
    (ov_by_date : Nat → Option AvailabilityOverride)
    (bh_by_weekday : Nat → Option BusinessHour)
    (appts : List Appointment) (now_dt d : Nat)
    (hs : soonest_available ov_by_date bh_by_weekday appts now_dt = none)
    (hd : d ∈ window_days (now_dt / minutesPerDay)) :
    build_slots_for_day ov_by_date bh_by_weekday
      (booked_starts_by_date appts (now_dt / minutesPerDay)
        (now_dt / minutesPerDay + WINDOW_DAYS)) now_dt d = [] := by
  by_contra hne
  have hopen := slots_nonempty_open ov_by_date bh_by_weekday
    (booked_starts_by_date appts (now_dt / minutesPerDay)
      (now_dt / minutesPerDay + WINDOW_DAYS)) now_dt d hne
  have hmem : d ∈ scan_available_dates ov_by_date bh_by_weekday appts now_dt := by
    rw [scan_available_dates, available_dates, List.mem_filter, Bool.and_eq_true]
    exact ⟨hd, hopen, by simpa using hne⟩
  rw [soonest_available, List.head?_eq_none_iff] at hs
  rw [hs] at hmem
  simp at hmem

/-- Every available date of the scan is an open date: the availability filter
includes the open-day test. -/
theorem mem_scan_available_mem_open
    (ov_by_date : Nat → Option AvailabilityOverride)
    (bh_by_weekday : Nat → Option BusinessHour)
    (appts : List Appointment) (now_dt d : Nat)
    (h : d ∈ scan_available_dates ov_by_date bh_by_weekday appts now_dt) :
    d ∈ scan_open_dates ov_by_date bh_by_weekday now_dt := by
  rw [scan_available_dates, available_dates, List.mem_filter, Bool.and_eq_true] at h
  rw [scan_open_dates, open_dates, List.mem_filter]
  exact ⟨h.1, h.2.1⟩

/-- Counterexample for C9 as stated: weekly hours give Mondays a single
09:00 slot and the nine Mondays of the 61-day window are all booked, so
`available_dates` is empty and no soonest available day exists. A request for
day 70 — a Monday beyond the window — is then shown directly with no notice,
and its slot list is the non-empty `[101340]` (day 70, 09:00), because the
booked-starts preload and the open/available classification only cover the
window. The claim's "otherwise the day is shown with no slots" fails. -/
theorem beyond_window_shows_slots :
    soonest_available fix_no_ov fix_bh_one_slot fix_appts_mondays 0 = none ∧
    select_day fix_no_ov fix_bh_one_slot fix_appts_mondays 0 (some 70) =
      (70, Notice.noneNotice) ∧
    selected_slots fix_no_ov fix_bh_one_slot fix_appts_mondays 0 (some 70) =
      [101340] := by
  refine ⟨by decide, by decide, by decide⟩

/-- Claim C9, amended: a requested date strictly before today is resolved
exactly as a request for today (clamp, then the same classification); a
clamped date not in `open_dates` is redirected to the soonest available day
with the not-open notice when one exists; a clamped date in `open_dates` but
not in `available_dates` is redirected with the fully-booked notice; a
clamped date in `available_dates` is shown directly with no notice; and when
no soonest available day exists the clamped date is shown with no notice —
its slot list is empty for days inside the 60-day scan window but may be
non-empty for days beyond it. -/
theorem select_day_policy (ov_by_date : Nat → Option AvailabilityOverride)
    (bh_by_weekday : Nat → Option BusinessHour)
    (appts : List Appointment) (now_dt req : Nat) :
    (req < now_dt / minutesPerDay →
      select_day ov_by_date bh_by_weekday appts now_dt (some req) =
        select_day ov_by_date bh_by_weekday appts now_dt (some (now_dt / minutesPerDay))) ∧
    (∀ s, soonest_available ov_by_date bh_by_weekday appts now_dt = some s →
      clamp_to_today (now_dt / minutesPerDay) req ∉
          scan_open_dates ov_by_date bh_by_weekday now_dt →
      select_day ov_by_date bh_by_weekday appts now_dt (some req) = (s, Notice.notOpen)) ∧
    (∀ s, soonest_available ov_by_date bh_by_weekday appts now_dt = some s →
      clamp_to_today (now_dt / minutesPerDay) req ∈
          scan_open_dates ov_by_date bh_by_weekday now_dt →
      clamp_to_today (now_dt / minutesPerDay) req ∉
          scan_available_dates ov_by_date bh_by_weekday appts now_dt →
      select_day ov_by_date bh_by_weekday appts now_dt (some req) = (s, Notice.fullyBooked)) ∧
    (clamp_to_today (now_dt / minutesPerDay) req ∈
          scan_available_dates ov_by_date bh_by_weekday appts now_dt →
      select_day ov_by_date bh_by_weekday appts now_dt (some req) =
        (clamp_to_today (now_dt / minutesPerDay) req, Notice.noneNotice)) ∧
    (soonest_available ov_by_date bh_by_weekday appts now_dt = none →
      select_day ov_by_date bh_by_weekday appts now_dt (some req) =
        (clamp_to_today (now_dt / minutesPerDay) req, Notice.noneNotice) ∧
      (clamp_to_today (now_dt / minutesPerDay) req ∈
          window_days (now_dt / minutesPerDay) →
        selected_slots ov_by_date bh_by_weekday appts now_dt (some req) = [])) := by
  refine ⟨?_, ?_, ?_, ?_, ?_⟩
  · intro hreq
    have h1 : clamp_to_today (now_dt / minutesPerDay) req = now_dt / minutesPerDay := by
      simp [clamp_to_today, hreq]
    have h2 : clamp_to_today (now_dt / minutesPerDay) (now_dt / minutesPerDay) =
        now_dt / minutesPerDay := by
      simp [clamp_to_today]
    simp only [select_day, h1, h2]
  · intro s hs hmem
    simp only [select_day, hs]
    rw [if_pos hmem]
  · intro s hs hod had
    simp only [select_day, hs]
    rw [if_neg (fun hn => hn hod), if_pos had]
  · intro hmem
    have hod := mem_scan_available_mem_open ov_by_date bh_by_weekday appts now_dt _ hmem
    cases hsa : soonest_available ov_by_date bh_by_weekday appts now_dt with
    | none =>
      exfalso
      rw [soonest_available, List.head?_eq_none_iff] at hsa
      rw [hsa] at hmem
      simp at hmem
    | some s =>
      simp only [select_day, hsa]
      rw [if_neg (fun hn => hn hod), if_neg (fun hn => hn hmem)]
  · intro hsa
    have hsel : select_day ov_by_date bh_by_weekday appts now_dt (some req) =
        (clamp_to_today (now_dt / minutesPerDay) req, Notice.noneNotice) := by
      simp only [select_day, hsa]
    refine ⟨hsel, fun hw => ?_⟩
    unfold selected_slots
    rw [hsel]
    exact soonest_none_window_empty ov_by_date bh_by_weekday appts now_dt _ hsa hw

/-- Witness for C9 amended: Mondays with one slot and an empty table — day 0
is available, so a request for day 0 is shown directly with no notice. -/
theorem select_day_policy_witness :
    clamp_to_today (0 / minutesPerDay) 0 ∈
      scan_available_dates fix_no_ov fix_bh_one_slot [] 0 ∧
    select_day fix_no_ov fix_bh_one_slot [] 0 (some 0) =
      (clamp_to_today (0 / minutesPerDay) 0, Notice.noneNotice) :=
  ⟨by decide, (select_day_policy fix_no_ov fix_bh_one_slot [] 0 0).2.2.2.1 (by decide)⟩

end EasyBook
